import Mathlib

/-!
Verification of the utterance segmentation logic of scripts/stt_capture.py.

The script is one main function. The definitions below embed, from the source:
the per-frame segmenter state machine (lines 120-145), the silence-stop check
(line 147), the max-duration check (lines 91-97), the frame slicing loop over
the byte buffer (lines 106-117), the outer polling loop (lines 89-153), and
the result formatting with its exit statuses (lines 155-170). Audio bytes are
modelled as lists of naturals; elapsed wall-clock time is a rational sampled,
as in the source, at the top of each polling cycle; the VAD classifier and the
recognizer are external collaborators, modelled respectively as a boolean
classification function and as events recorded in a trace.
-/

set_option maxRecDepth 10000

namespace SttCapture

/-- Frame duration in milliseconds, fixed at 30 in the source (line 51). -/
def frame_duration_ms : Nat := 30

/-- Debounce threshold in milliseconds (line 68 of the source). -/
def MIN_SPEECH_RUN_MS : Nat := 150

/-- Segmenter state: the three mutable variables of lines 62-67. -/
structure SegState where
  speech_started : Bool
  non_speech_ms : Nat
  consecutive_speech_ms : Nat
deriving Repr, DecidableEq

/-- Initial state: all fields zeroed or false (lines 62-67). -/
def initState : SegState := ⟨false, 0, 0⟩

inductive StopReason where
  | SilenceTimeout
  | MaxDurationReached
deriving Repr, DecidableEq

inductive Verdict where
  | Continue
  | Stop (reason : StopReason)
deriving Repr, DecidableEq

/-- Per-frame state update of lines 120-145: on a speech frame extend the
consecutive run and, at the debounce threshold, confirm the start (Logic A)
and reset accumulated silence (Logic B); on a non-speech frame reset the run
and, once started, accumulate silence. -/
def updateState (s : SegState) (is_speech : Bool) : SegState :=
  if is_speech then
    let consec := s.consecutive_speech_ms + frame_duration_ms
    let startedA := if ¬ s.speech_started ∧ MIN_SPEECH_RUN_MS ≤ consec then true else s.speech_started
    let nsA := if ¬ s.speech_started ∧ MIN_SPEECH_RUN_MS ≤ consec then 0 else s.non_speech_ms
    let nsB := if startedA ∧ MIN_SPEECH_RUN_MS ≤ consec then 0 else nsA
    ⟨startedA, nsB, consec⟩
  else
    ⟨s.speech_started,
      if s.speech_started then s.non_speech_ms + frame_duration_ms else s.non_speech_ms,
      0⟩

/-- One frame observed: the state update followed by the silence-stop check of
line 147 (raise StopIteration when speech has started and accumulated silence
reached the configured threshold). -/
def observe (silence_ms : Nat) (s : SegState) (is_speech : Bool) : SegState × Verdict :=
  let s' := updateState s is_speech
  if s'.speech_started ∧ silence_ms ≤ s'.non_speech_ms then (s', Verdict.Stop StopReason.SilenceTimeout)
  else (s', Verdict.Continue)

/-- Max-duration check of lines 91-92: strict comparison, elapsed must exceed
the cap for the loop to break. -/
def checkTimeout (max_seconds elapsed : ℚ) : Verdict :=
  if max_seconds < elapsed then Verdict.Stop StopReason.MaxDurationReached else Verdict.Continue

/-- Run the segmenter over a list of per-frame classifications. Returns the
final state together with the 1-based index of the frame at which a stop
verdict was returned, if any. -/
def runSeg (silence_ms : Nat) (s : SegState) : List Bool → SegState × Option Nat
  | [] => (s, none)
  | b :: bs =>
    match observe silence_ms s b with
    | (s₁, Verdict.Stop _) => (s₁, some 1)
    | (s₁, Verdict.Continue) =>
      let r := runSeg silence_ms s₁ bs
      (r.1, r.2.map (· + 1))

/-- Observable per-frame actions of the streaming loop: the VAD call (line
114), the recognizer feed (line 117), the segmenter update with the obtained
classification (lines 120-153), and the final-transcript request (line 164). -/
inductive Event where
  | Classify (frame : List Nat)
  | Accept (frame : List Nat)
  | Observe (frame : List Nat) (is_speech : Bool)
  | FinalResult
deriving Repr, DecidableEq

def isObserveEvent : Event → Bool
  | Event.Observe _ _ => true
  | _ => false

def isAcceptEvent : Event → Bool
  | Event.Accept _ => true
  | _ => false

def isFinalEvent : Event → Bool
  | Event.FinalResult => true
  | _ => false

/-- The trace produced while feeding a list of frames: for each frame, in
order, the VAD call, the recognizer feed, then the segmenter observation. -/
def frameTrace (classify : List Nat → Bool) : List (List Nat) → List Event
  | [] => []
  | f :: fs =>
    Event.Classify f :: Event.Accept f :: Event.Observe f (classify f) :: frameTrace classify fs

/-- Result of the inner frame-slicing loop. -/
structure ProcRes where
  state : SegState
  fed : List (List Nat)
  leftover : List Nat
  stopped : Bool
  trace : List Event
deriving Repr, DecidableEq

/-- Inner frame loop of lines 109-153: while at least frame_bytes bytes are
buffered, slice one frame off the front, classify it, feed the recognizer,
update the segmenter, and stop the whole loop on a stop verdict. Fuel makes
the recursion structural; each pass consumes one unit of fuel and, when
frame_bytes is positive, at least one byte, so fuel equal to the buffer
length always suffices (for frame_bytes = 0 the source loop does not
terminate, and no claim concerns that degenerate configuration). -/
def processFramesAux (classify : List Nat → Bool) (silence_ms frame_bytes : Nat) :
    Nat → SegState → List Nat → ProcRes
  | 0, s, buffer => ⟨s, [], buffer, false, []⟩
  | fuel + 1, s, buffer =>
    if frame_bytes ≤ buffer.length then
      let frame := buffer.take frame_bytes
      let rest := buffer.drop frame_bytes
      let is_speech := classify frame
      match observe silence_ms s is_speech with
      | (s₁, Verdict.Stop _) =>
        ⟨s₁, [frame], rest, true,
          [Event.Classify frame, Event.Accept frame, Event.Observe frame is_speech]⟩
      | (s₁, Verdict.Continue) =>
        let r := processFramesAux classify silence_ms frame_bytes fuel s₁ rest
        ⟨r.state, frame :: r.fed, r.leftover, r.stopped,
          Event.Classify frame :: Event.Accept frame :: Event.Observe frame is_speech :: r.trace⟩
    else ⟨s, [], buffer, false, []⟩

/-- The frame-slicing loop entered with fuel equal to the buffer length. -/
def processFrames (classify : List Nat → Bool) (silence_ms frame_bytes : Nat)
    (s : SegState) (buffer : List Nat) : ProcRes :=
  processFramesAux classify silence_ms frame_bytes buffer.length s buffer

/-- One iteration of the outer polling loop: the elapsed time sampled at line
91, and either a queue timeout (queue.Empty, line 102) or a chunk of raw
bytes obtained from the queue (line 101). -/
inductive CycleInput where
  | empty (elapsed : ℚ)
  | data (elapsed : ℚ) (chunk : List Nat)
deriving Repr, DecidableEq

def cycleElapsed : CycleInput → ℚ
  | CycleInput.empty e => e
  | CycleInput.data e _ => e

inductive SessionOutcome where
  | running
  | maxDuration
  | silenceStop
deriving Repr, DecidableEq

/-- Result of the outer loop: how it ended (still running when the supplied
cycles are exhausted), the segmenter state, the unconsumed byte buffer, and
the trace of observable actions. -/
structure SessRes where
  outcome : SessionOutcome
  state : SegState
  buffer : List Nat
  trace : List Event
deriving Repr, DecidableEq

/-- Outer polling loop of lines 89-153: each cycle first performs the
max-duration check on the sampled elapsed time, then either retries on a
queue timeout or appends the received chunk to the byte buffer and runs the
inner frame loop; a silence stop ends the session at once, discarding the
unconsumed remainder of the buffer. -/
def runSession (classify : List Nat → Bool) (max_seconds : ℚ) (silence_ms frame_bytes : Nat) :
    List CycleInput → SegState → List Nat → SessRes
  | [], s, buf => ⟨SessionOutcome.running, s, buf, []⟩
  | c :: rest, s, buf =>
    match checkTimeout max_seconds (cycleElapsed c) with
    | Verdict.Stop _ => ⟨SessionOutcome.maxDuration, s, buf, []⟩
    | Verdict.Continue =>
      match c with
      | CycleInput.empty _ => runSession classify max_seconds silence_ms frame_bytes rest s buf
      | CycleInput.data _ chunk =>
        let r := processFrames classify silence_ms frame_bytes s (buf ++ chunk)
        if r.stopped then ⟨SessionOutcome.silenceStop, r.state, r.leftover, r.trace⟩
        else
          let r₂ := runSession classify max_seconds silence_ms frame_bytes rest r.state r.leftover
          ⟨r₂.outcome, r₂.state, r₂.buffer, r.trace ++ r₂.trace⟩

/-- Bytes per frame, line 52-53: frame_samples = samplerate * 30 / 1000 with
integer division, and two bytes per 16-bit sample. -/
def frameBytesOf (samplerate : Nat) : Nat :=
  samplerate * frame_duration_ms / 1000 * 2

/-- The single machine-readable result line, modelling the JSON object printed
to stdout: a text field and an optional error field. -/
structure TranscriptResult where
  text : String
  error : Option String
deriving Repr, DecidableEq

/-- How the try body of lines 15-153 ends: StopIteration raised by the silence
stop, normal completion via the max-duration break, or any other exception
raised by a component during setup or streaming, carrying its message. -/
inductive BodyOutcome where
  | stopIter
  | completed
  | raised (msg : String)
deriving Repr, DecidableEq

/-- Result formatting of lines 155-170: an exception from the body yields one
error line and exit status 1; otherwise the final result is requested and
parsed, yielding either one text line and status 0 or one error line (with
the parsing message) and status 1. The returned list holds the lines printed
to stdout, in order. -/
def mainOutput (body : BodyOutcome) (finalRaw : Except String String) :
    List TranscriptResult × Nat :=
  match body with
  | BodyOutcome.raised msg => ([⟨"", some msg⟩], 1)
  | _ =>
    match finalRaw with
    | Except.ok text => ([⟨text, none⟩], 0)
    | Except.error e => ([⟨"", some ("Result parsing error: " ++ e)⟩], 1)

/-- Full observable trace of a run of main that reaches the final-result
block: the session trace followed by the single FinalResult request (line
164). A session whose cycles are exhausted is still running and has not yet
requested the final result. -/
def mainTrace (classify : List Nat → Bool) (max_seconds : ℚ) (silence_ms frame_bytes : Nat)
    (cycles : List CycleInput) : List Event :=
  let r := runSession classify max_seconds silence_ms frame_bytes cycles initState []
  match r.outcome with
  | SessionOutcome.running => r.trace
  | _ => r.trace ++ [Event.FinalResult]

/-- Command-line arguments recognized by the parser, lines 21-38, in order of
declaration. The seconds field is the legacy argument of line 36, parsed for
backward compatibility only. -/
structure Args where
  model : String
  samplerate : Nat
  max_seconds : ℚ
  silence_ms : Nat
  vad_mode : Nat
  debug : Bool
  device : Option Nat
  seconds : Option ℚ
deriving Repr, DecidableEq

/-- A run of main from parsed arguments: the session loop driven by the
configured thresholds, then the result formatting, selected by how the loop
ended. When the supplied cycles are exhausted with the loop still running, no
output has been produced yet. -/
def runMain (classify : List Nat → Bool) (a : Args) (cycles : List CycleInput)
    (finalRaw : Except String String) : SessRes × Option (List TranscriptResult × Nat) :=
  let r := runSession classify a.max_seconds a.silence_ms (frameBytesOf a.samplerate) cycles initState []
  match r.outcome with
  | SessionOutcome.running => (r, none)
  | SessionOutcome.maxDuration => (r, some (mainOutput BodyOutcome.completed finalRaw))
  | SessionOutcome.silenceStop => (r, some (mainOutput BodyOutcome.stopIter finalRaw))

/-- Classifications carried by the Observe events of a trace, in order. -/
def obsBools : List Event → List Bool
  | [] => []
  | Event.Observe _ b :: es => b :: obsBools es
  | _ :: es => obsBools es

/-- Checks that no run of consecutive speech classifications ever reaches the
debounce threshold, given that r speech frames immediately precede the list. -/
def noLongRunB : Nat → List Bool → Bool
  | _, [] => true
  | r, b :: bs =>
    if b then decide ((r + 1) * frame_duration_ms < MIN_SPEECH_RUN_MS) && noLongRunB (r + 1) bs
    else noLongRunB 0 bs

/-- Length of the run of speech classifications at the end of the list, given
that r speech frames immediately precede it. -/
def runCredit : Nat → List Bool → Nat
  | r, [] => r
  | r, b :: bs => runCredit (if b then r + 1 else 0) bs

/-- A concrete classifier used to instantiate witnesses: a frame counts as
speech exactly when its first byte is 1. -/
def vadOf (f : List Nat) : Bool := f.headD 0 == 1

/-- The frames of Scenario A: at 16 kHz and 30 ms, ten 960-byte frames that
vadOf classifies as speech followed by eighty that it classifies as
non-speech. -/
def scenarioFrames : List (List Nat) :=
  List.replicate 10 (List.replicate 960 1) ++ List.replicate 80 (List.replicate 960 0)

/-- Claim C1: on a speech frame the consecutive run is extended by the frame
duration and, when the resulting run reaches MIN_SPEECH_RUN_MS, the segmenter
has speech_started true and non_speech_ms reset to 0; on a non-speech frame
the run is reset to 0, speech_started is unchanged, and non_speech_ms is
incremented by the frame duration exactly when speech_started is true. -/
theorem seg_update_per_frame (s : SegState) (b : Bool) :
    (b = true →
      (updateState s b).consecutive_speech_ms = s.consecutive_speech_ms + frame_duration_ms ∧
      (MIN_SPEECH_RUN_MS ≤ (updateState s b).consecutive_speech_ms →
        (updateState s b).speech_started = true ∧ (updateState s b).non_speech_ms = 0)) ∧
    (b = false →
      (updateState s b).consecutive_speech_ms = 0 ∧
      (updateState s b).speech_started = s.speech_started ∧
      (s.speech_started = true →
        (updateState s b).non_speech_ms = s.non_speech_ms + frame_duration_ms) ∧
      (s.speech_started = false → (updateState s b).non_speech_ms = s.non_speech_ms)) := by
  obtain ⟨st, ns, cs⟩ := s
  cases b <;> cases st <;>
    simp only [updateState, frame_duration_ms, MIN_SPEECH_RUN_MS] <;>
    constructor <;> intro h <;> simp_all

/-- Claim C1 witness at a concrete state and frame. -/
theorem seg_update_per_frame_witness :
    ((true : Bool) = true →
      (updateState ⟨false, 0, 120⟩ true).consecutive_speech_ms = 120 + frame_duration_ms ∧
      (MIN_SPEECH_RUN_MS ≤ (updateState ⟨false, 0, 120⟩ true).consecutive_speech_ms →
        (updateState ⟨false, 0, 120⟩ true).speech_started = true ∧
        (updateState ⟨false, 0, 120⟩ true).non_speech_ms = 0)) ∧
    ((true : Bool) = false →
      (updateState ⟨false, 0, 120⟩ true).consecutive_speech_ms = 0 ∧
      (updateState ⟨false, 0, 120⟩ true).speech_started = (false : Bool) ∧
      ((false : Bool) = true →
        (updateState ⟨false, 0, 120⟩ true).non_speech_ms = 0 + frame_duration_ms) ∧
      ((false : Bool) = false → (updateState ⟨false, 0, 120⟩ true).non_speech_ms = 0)) :=
  seg_update_per_frame ⟨false, 0, 120⟩ true

/-- Claim C2: the per-frame stop verdict is SilenceTimeout exactly when, after
the state update, speech_started is true and non_speech_ms has reached
silence_ms; in particular it never fires while speech_started is false or
while non_speech_ms is below silence_ms. -/
theorem silence_stop_iff (silence_ms : Nat) (s : SegState) (b : Bool) :
    (observe silence_ms s b).1 = updateState s b ∧
    ((observe silence_ms s b).2 = Verdict.Stop StopReason.SilenceTimeout ↔
      (updateState s b).speech_started = true ∧ silence_ms ≤ (updateState s b).non_speech_ms) := by
  simp only [observe]
  split_ifs with h <;> simp_all

/-- Claim C9: speech_started false forces non_speech_ms = 0; the invariant
holds initially, is preserved by every per-frame update, and at the moment
speech_started turns true the silence counter is exactly zero. -/
theorem non_speech_zero_invariant (s : SegState) (b : Bool)
    (hinv : s.speech_started = false → s.non_speech_ms = 0) :
    (initState.speech_started = false → initState.non_speech_ms = 0) ∧
    ((updateState s b).speech_started = false → (updateState s b).non_speech_ms = 0) ∧
    (s.speech_started = false → (updateState s b).speech_started = true →
      (updateState s b).non_speech_ms = 0) := by
  obtain ⟨st, ns, cs⟩ := s
  refine ⟨fun _ => rfl, ?_, ?_⟩ <;>
    cases b <;> cases st <;> simp_all [updateState]

/-- Claim C9 witness at a concrete state and frame. -/
theorem non_speech_zero_invariant_witness :
    ((SegState.mk false 0 60).speech_started = false → (SegState.mk false 0 60).non_speech_ms = 0) ∧
    ((initState.speech_started = false → initState.non_speech_ms = 0) ∧
      ((updateState ⟨false, 0, 60⟩ true).speech_started = false →
        (updateState ⟨false, 0, 60⟩ true).non_speech_ms = 0) ∧
      ((SegState.mk false 0 60).speech_started = false →
        (updateState ⟨false, 0, 60⟩ true).speech_started = true →
        (updateState ⟨false, 0, 60⟩ true).non_speech_ms = 0)) :=
  ⟨by decide, non_speech_zero_invariant ⟨false, 0, 60⟩ true (by decide)⟩

/-- Claim C4: the max-duration verdict is MaxDurationReached exactly when the
elapsed time strictly exceeds max_seconds, and when the elapsed time sampled
at the top of a polling cycle exceeds max_seconds the loop ends at once with
outcome maxDuration, for every segmenter state and buffer content, producing
no further frame-processing or silence-timeout events. -/
theorem max_duration_check (classify : List Nat → Bool) (max_seconds : ℚ)
    (silence_ms n : Nat) (c : CycleInput) (rest : List CycleInput)
    (s : SegState) (buf : List Nat) (h : max_seconds < cycleElapsed c) :
    (∀ e : ℚ, checkTimeout max_seconds e = Verdict.Stop StopReason.MaxDurationReached ↔
      max_seconds < e) ∧
    runSession classify max_seconds silence_ms n (c :: rest) s buf =
      ⟨SessionOutcome.maxDuration, s, buf, []⟩ := by
  constructor
  · intro e
    unfold checkTimeout
    split_ifs with he <;> simp [he]
  · cases c <;> simp [runSession, checkTimeout, cycleElapsed] <;>
      simp [cycleElapsed] at h <;> simp [h]

/-- Claim C4 witness: elapsed 13 over a 12-second cap, in a state with speech
already started. -/
theorem max_duration_check_witness :
    (∀ e : ℚ, checkTimeout 12 e = Verdict.Stop StopReason.MaxDurationReached ↔ (12 : ℚ) < e) ∧
    runSession vadOf 12 2200 960 (CycleInput.empty 13 :: []) ⟨true, 300, 0⟩ [5] =
      ⟨SessionOutcome.maxDuration, ⟨true, 300, 0⟩, [5], []⟩ :=
  max_duration_check vadOf 12 2200 960 (CycleInput.empty 13) [] ⟨true, 300, 0⟩ [5] (by decide)

/-- Claim C6: on every terminating path the program prints exactly one result
line; an error line has empty text and accompanies a nonzero exit status, and
exactly the error paths exit nonzero; an exception from the body yields the
line with its message and status 1, and a successfully parsed final result
yields the transcript line with status 0. -/
theorem error_result_shape (body : BodyOutcome) (finalRaw : Except String String) :
    (mainOutput body finalRaw).1.length = 1 ∧
    (∀ r ∈ (mainOutput body finalRaw).1, r.error.isSome = true → r.text = "") ∧
    ((mainOutput body finalRaw).2 ≠ 0 ↔
      ∀ r ∈ (mainOutput body finalRaw).1, r.error.isSome = true) ∧
    (∀ msg, body = BodyOutcome.raised msg →
      mainOutput body finalRaw = ([⟨"", some msg⟩], 1)) ∧
    (∀ text, (∀ msg, body ≠ BodyOutcome.raised msg) → finalRaw = Except.ok text →
      mainOutput body finalRaw = ([⟨text, none⟩], 0)) := by
  cases body <;> cases finalRaw <;> simp [mainOutput]

/-- Claim C6 witness: an exception path and a success path at concrete data. -/
theorem error_result_shape_witness :
    ((mainOutput (BodyOutcome.raised "boom") (Except.ok "hi")).1.length = 1 ∧
      (∀ r ∈ (mainOutput (BodyOutcome.raised "boom") (Except.ok "hi")).1,
        r.error.isSome = true → r.text = "") ∧
      ((mainOutput (BodyOutcome.raised "boom") (Except.ok "hi")).2 ≠ 0 ↔
        ∀ r ∈ (mainOutput (BodyOutcome.raised "boom") (Except.ok "hi")).1,
          r.error.isSome = true) ∧
      (∀ msg, BodyOutcome.raised "boom" = BodyOutcome.raised msg →
        mainOutput (BodyOutcome.raised "boom") (Except.ok "hi") = ([⟨"", some msg⟩], 1)) ∧
      (∀ text, (∀ msg, BodyOutcome.raised "boom" ≠ BodyOutcome.raised msg) →
        (Except.ok "hi" : Except String String) = Except.ok text →
        mainOutput (BodyOutcome.raised "boom") (Except.ok "hi") = ([⟨text, none⟩], 0))) ∧
    (mainOutput BodyOutcome.stopIter (Except.ok "hi") = ([⟨"hi", none⟩], 0)) :=
  ⟨error_result_shape (BodyOutcome.raised "boom") (Except.ok "hi"), rfl⟩

/-- Claim C10: two runs of main that differ only in the legacy seconds
argument have identical session behavior, identical output lines, and
identical exit status; the argument is parsed but never read. -/
theorem seconds_arg_noninterference (classify : List Nat → Bool)
    (model : String) (samplerate : Nat) (max_seconds : ℚ) (silence_ms vad_mode : Nat)
    (debug : Bool) (device : Option Nat) (x y : Option ℚ)
    (cycles : List CycleInput) (finalRaw : Except String String) :
    runMain classify ⟨model, samplerate, max_seconds, silence_ms, vad_mode, debug, device, x⟩
        cycles finalRaw =
      runMain classify ⟨model, samplerate, max_seconds, silence_ms, vad_mode, debug, device, y⟩
        cycles finalRaw := rfl

theorem procAux_join (classify : List Nat → Bool) (silence_ms n : Nat) :
    ∀ (fuel : Nat) (s : SegState) (buffer : List Nat),
      (processFramesAux classify silence_ms n fuel s buffer).fed.flatten ++
        (processFramesAux classify silence_ms n fuel s buffer).leftover = buffer := by
  intro fuel
  induction fuel with
  | zero => intro s buffer; simp [processFramesAux]
  | succ m ih =>
    intro s buffer
    simp only [processFramesAux]
    by_cases hg : n ≤ buffer.length
    · simp only [if_pos hg]
      rcases hv : observe silence_ms s (classify (buffer.take n)) with ⟨s₁, v⟩
      cases v with
      | Stop r => simp [List.take_append_drop]
      | Continue => simp [ih s₁ (buffer.drop n), List.take_append_drop]
    · simp [if_neg hg]

theorem procAux_fed_length (classify : List Nat → Bool) (silence_ms n : Nat) :
    ∀ (fuel : Nat) (s : SegState) (buffer : List Nat),
      ∀ f ∈ (processFramesAux classify silence_ms n fuel s buffer).fed, f.length = n := by
  intro fuel
  induction fuel with
  | zero => intro s buffer; simp [processFramesAux]
  | succ m ih =>
    intro s buffer
    simp only [processFramesAux]
    by_cases hg : n ≤ buffer.length
    · simp only [if_pos hg]
      rcases hv : observe silence_ms s (classify (buffer.take n)) with ⟨s₁, v⟩
      cases v with
      | Stop r =>
        simp only []
        intro f hf
        simp only [List.mem_singleton] at hf
        subst hf
        simp [List.length_take]
        omega
      | Continue =>
        simp only []
        intro f hf
        rcases List.mem_cons.mp hf with h | h
        · subst h; simp [List.length_take]; omega
        · exact ih s₁ (buffer.drop n) f h
    · simp [if_neg hg]

theorem procAux_leftover_small (classify : List Nat → Bool) (silence_ms n : Nat) (hn : 0 < n) :
    ∀ (fuel : Nat) (s : SegState) (buffer : List Nat), buffer.length ≤ fuel * n →
      (processFramesAux classify silence_ms n fuel s buffer).stopped = false →
      (processFramesAux classify silence_ms n fuel s buffer).leftover.length < n := by
  intro fuel
  induction fuel with
  | zero =>
    intro s buffer hb _
    simp only [processFramesAux]
    omega
  | succ m ih =>
    intro s buffer hb
    simp only [processFramesAux]
    by_cases hg : n ≤ buffer.length
    · simp only [if_pos hg]
      rcases hv : observe silence_ms s (classify (buffer.take n)) with ⟨s₁, v⟩
      cases v with
      | Stop r => simp
      | Continue =>
        simp only []
        intro hs
        refine ih s₁ (buffer.drop n) ?_ hs
        simp only [List.length_drop]
        have : (m + 1) * n = m * n + n := by ring
        omega
    · intro _
      simp [if_neg hg]
      omega

theorem procAux_trace_eq (classify : List Nat → Bool) (silence_ms n : Nat) :
    ∀ (fuel : Nat) (s : SegState) (buffer : List Nat),
      (processFramesAux classify silence_ms n fuel s buffer).trace =
        frameTrace classify (processFramesAux classify silence_ms n fuel s buffer).fed := by
  intro fuel
  induction fuel with
  | zero => intro s buffer; simp [processFramesAux, frameTrace]
  | succ m ih =>
    intro s buffer
    simp only [processFramesAux]
    by_cases hg : n ≤ buffer.length
    · simp only [if_pos hg]
      rcases hv : observe silence_ms s (classify (buffer.take n)) with ⟨s₁, v⟩
      cases v with
      | Stop r => simp [frameTrace]
      | Continue => simp [frameTrace, ih s₁ (buffer.drop n)]
    · simp [if_neg hg, frameTrace]

theorem procAux_runSeg (classify : List Nat → Bool) (silence_ms n : Nat) :
    ∀ (fuel : Nat) (s : SegState) (buffer : List Nat),
      runSeg silence_ms s ((processFramesAux classify silence_ms n fuel s buffer).fed.map classify) =
        ((processFramesAux classify silence_ms n fuel s buffer).state,
          if (processFramesAux classify silence_ms n fuel s buffer).stopped then
            some (processFramesAux classify silence_ms n fuel s buffer).fed.length
          else none) := by
  intro fuel
  induction fuel with
  | zero => intro s buffer; simp [processFramesAux, runSeg]
  | succ m ih =>
    intro s buffer
    simp only [processFramesAux]
    by_cases hg : n ≤ buffer.length
    · simp only [if_pos hg]
      rcases hv : observe silence_ms s (classify (buffer.take n)) with ⟨s₁, v⟩
      cases v with
      | Stop r => simp [runSeg, hv]
      | Continue =>
        simp only [List.map_cons, runSeg, hv]
        rw [ih s₁ (buffer.drop n)]
        by_cases hs : (processFramesAux classify silence_ms n m s₁ (buffer.drop n)).stopped
        · simp [hs]
        · simp [hs]
    · simp [if_neg hg, runSeg]

/-- Claim C5: the inner loop slices the buffer into consecutive full frames in
FIFO order — their concatenation followed by the leftover reassembles the
buffer exactly, so no frame is reordered, dropped, or duplicated; every fed
frame is exactly frame_bytes long; when the loop drains the buffer without a
stop verdict the leftover is shorter than one frame and is never classified;
each fed frame is classified and fed to the recognition sink before the
segmenter update; and on a stop verdict the session ends at once, its trace
ending with the frames fed so far, the leftover bytes discarded unfed. -/
theorem frame_buffering_fifo (classify : List Nat → Bool) (max_seconds : ℚ)
    (silence_ms n : Nat) (hn : 0 < n) (s : SegState) (buf chunk : List Nat)
    (e : ℚ) (he : ¬ max_seconds < e) (rest : List CycleInput) :
    ((processFrames classify silence_ms n s (buf ++ chunk)).fed.flatten ++
        (processFrames classify silence_ms n s (buf ++ chunk)).leftover = buf ++ chunk) ∧
    (∀ f ∈ (processFrames classify silence_ms n s (buf ++ chunk)).fed, f.length = n) ∧
    ((processFrames classify silence_ms n s (buf ++ chunk)).stopped = false →
      (processFrames classify silence_ms n s (buf ++ chunk)).leftover.length < n) ∧
    ((processFrames classify silence_ms n s (buf ++ chunk)).trace =
      frameTrace classify (processFrames classify silence_ms n s (buf ++ chunk)).fed) ∧
    ((processFrames classify silence_ms n s (buf ++ chunk)).stopped = true →
      runSession classify max_seconds silence_ms n (CycleInput.data e chunk :: rest) s buf =
        ⟨SessionOutcome.silenceStop,
          (processFrames classify silence_ms n s (buf ++ chunk)).state,
          (processFrames classify silence_ms n s (buf ++ chunk)).leftover,
          (processFrames classify silence_ms n s (buf ++ chunk)).trace⟩) := by
  refine ⟨procAux_join classify silence_ms n _ s _,
    procAux_fed_length classify silence_ms n _ s _,
    procAux_leftover_small classify silence_ms n hn _ s _ ?_,
    procAux_trace_eq classify silence_ms n _ s _, ?_⟩
  · exact Nat.le_mul_of_pos_right _ hn
  · intro hs
    simp only [runSession, checkTimeout, cycleElapsed, if_neg he]
    simp [hs]

/-- Claim C5 witness: a two-byte frame size over a five-byte chunk. -/
theorem frame_buffering_fifo_witness :
    ((processFrames vadOf 2200 2 initState ([] ++ [1, 2, 3, 0, 5])).fed.flatten ++
        (processFrames vadOf 2200 2 initState ([] ++ [1, 2, 3, 0, 5])).leftover =
        [] ++ [1, 2, 3, 0, 5]) ∧
    (∀ f ∈ (processFrames vadOf 2200 2 initState ([] ++ [1, 2, 3, 0, 5])).fed, f.length = 2) ∧
    ((processFrames vadOf 2200 2 initState ([] ++ [1, 2, 3, 0, 5])).stopped = false →
      (processFrames vadOf 2200 2 initState ([] ++ [1, 2, 3, 0, 5])).leftover.length < 2) ∧
    ((processFrames vadOf 2200 2 initState ([] ++ [1, 2, 3, 0, 5])).trace =
      frameTrace vadOf (processFrames vadOf 2200 2 initState ([] ++ [1, 2, 3, 0, 5])).fed) ∧
    ((processFrames vadOf 2200 2 initState ([] ++ [1, 2, 3, 0, 5])).stopped = true →
      runSession vadOf 12 2200 2 (CycleInput.data 1 [1, 2, 3, 0, 5] :: []) initState [] =
        ⟨SessionOutcome.silenceStop,
          (processFrames vadOf 2200 2 initState ([] ++ [1, 2, 3, 0, 5])).state,
          (processFrames vadOf 2200 2 initState ([] ++ [1, 2, 3, 0, 5])).leftover,
          (processFrames vadOf 2200 2 initState ([] ++ [1, 2, 3, 0, 5])).trace⟩) :=
  frame_buffering_fifo vadOf 12 2200 2 (by decide) initState [] [1, 2, 3, 0, 5] 1
    (by decide) []

theorem procAux_of_frames (classify : List Nat → Bool) (silence_ms n : Nat) (hn : 0 < n) :
    ∀ (fs : List (List Nat)) (s : SegState) (fuel : Nat),
      (∀ f ∈ fs, f.length = n) → fs.flatten.length ≤ fuel →
      processFramesAux classify silence_ms n fuel s fs.flatten =
        (match runSeg silence_ms s (fs.map classify) with
          | (s', none) => ⟨s', fs, [], false, frameTrace classify fs⟩
          | (s', some k) => ⟨s', fs.take k, (fs.drop k).flatten, true,
              frameTrace classify (fs.take k)⟩) := by
  intro fs
  induction fs with
  | nil =>
    intro s fuel _ _
    have hne : n ≠ 0 := by omega
    cases fuel with
    | zero => simp [processFramesAux, runSeg, frameTrace]
    | succ m => simp [processFramesAux, runSeg, frameTrace, hne]
  | cons f fs ih =>
    intro s fuel hlen hfuel
    have hf : f.length = n := hlen f (List.mem_cons_self f fs)
    have hjoin : ((f :: fs).flatten).length = n + fs.flatten.length := by
      simp [hf]
    cases fuel with
    | zero => omega
    | succ m =>
      have hg : n ≤ ((f :: fs).flatten).length := by omega
      have htake : ((f :: fs).flatten).take n = f := by
        rw [List.flatten_cons, ← hf, List.take_left]
      have hdrop : ((f :: fs).flatten).drop n = fs.flatten := by
        rw [List.flatten_cons, ← hf, List.drop_left]
      simp only [processFramesAux, if_pos hg, htake, hdrop]
      rcases hv : observe silence_ms s (classify f) with ⟨s₁, v⟩
      cases v with
      | Stop r =>
        simp only [List.map_cons, runSeg, hv]
        simp [frameTrace]
      | Continue =>
        have hm : fs.flatten.length ≤ m := by omega
        have harg : ∀ g ∈ fs, g.length = n := fun g hg' => hlen g (List.mem_cons_of_mem f hg')
        simp only [List.map_cons, runSeg, hv, ih s₁ m harg hm]
        rcases hrr : runSeg silence_ms s₁ (fs.map classify) with ⟨s', o⟩
        cases o with
        | none => simp [hrr, frameTrace]
        | some k => simp [hrr, frameTrace]

theorem countP_observe_frameTrace (classify : List Nat → Bool) :
    ∀ fs : List (List Nat), (frameTrace classify fs).countP isObserveEvent = fs.length := by
  intro fs
  induction fs with
  | nil => simp [frameTrace]
  | cons f fs ih => simp [frameTrace, List.countP_cons, isObserveEvent, ih]

theorem countP_final_frameTrace (classify : List Nat → Bool) :
    ∀ fs : List (List Nat), (frameTrace classify fs).countP isFinalEvent = 0 := by
  intro fs
  induction fs with
  | nil => simp [frameTrace]
  | cons f fs ih => simp [frameTrace, List.countP_cons, isFinalEvent, ih]

/-- Claim C7, Scenario A: at 16 kHz with 30 ms frames, silence_ms 2200 and the
150 ms debounce, a session fed ten speech-classified frames followed by
eighty non-speech-classified frames stops with SilenceTimeout exactly at
frame 84 — the 74th non-speech frame — observing no frame beyond it, and the
final result is requested exactly once. -/
theorem scenario_A (classify : List Nat → Bool) (fs : List (List Nat))
    (hlen : ∀ f ∈ fs, f.length = frameBytesOf 16000)
    (hcls : fs.map classify = List.replicate 10 true ++ List.replicate 80 false) :
    (runSession classify 12 2200 (frameBytesOf 16000)
        [CycleInput.data 1 fs.flatten] initState []).outcome = SessionOutcome.silenceStop ∧
    (runSession classify 12 2200 (frameBytesOf 16000)
        [CycleInput.data 1 fs.flatten] initState []).trace.countP isObserveEvent = 84 ∧
    (mainTrace classify 12 2200 (frameBytesOf 16000)
        [CycleInput.data 1 fs.flatten]).countP isFinalEvent = 1 := by
  have h960 : frameBytesOf 16000 = 960 := rfl
  have hRS : runSeg 2200 initState (fs.map classify) = (⟨true, 2220, 0⟩, some 84) := by
    rw [hcls]; decide
  have hlfs : fs.length = 90 := by
    have h := congrArg List.length hcls
    simpa using h
  have hproc : processFrames classify 2200 (frameBytesOf 16000) initState fs.flatten =
      ⟨⟨true, 2220, 0⟩, fs.take 84, (fs.drop 84).flatten, true,
        frameTrace classify (fs.take 84)⟩ := by
    unfold processFrames
    rw [procAux_of_frames classify 2200 (frameBytesOf 16000) (by rw [h960]; omega) fs initState
      fs.flatten.length hlen (le_refl _), hRS]
  have h121 : ¬ (12 : ℚ) < 1 := by norm_num
  have hsess : runSession classify 12 2200 (frameBytesOf 16000)
      [CycleInput.data 1 fs.flatten] initState [] =
      ⟨SessionOutcome.silenceStop, ⟨true, 2220, 0⟩, (fs.drop 84).flatten,
        frameTrace classify (fs.take 84)⟩ := by
    simp only [runSession, cycleElapsed, checkTimeout, if_neg h121, List.nil_append, hproc]
    simp
  refine ⟨by rw [hsess], ?_, ?_⟩
  · rw [hsess]
    show (frameTrace classify (fs.take 84)).countP isObserveEvent = 84
    rw [countP_observe_frameTrace, List.length_take, hlfs]
    omega
  · simp only [mainTrace, hsess]
    rw [List.countP_append, countP_final_frameTrace]
    rfl

/-- Claim C7 witness: the concrete classifier vadOf on ten all-ones frames
followed by eighty all-zero frames of 960 bytes each. -/
theorem scenario_A_witness :
    (runSession vadOf 12 2200 (frameBytesOf 16000)
        [CycleInput.data 1 scenarioFrames.flatten] initState []).outcome =
      SessionOutcome.silenceStop ∧
    (runSession vadOf 12 2200 (frameBytesOf 16000)
        [CycleInput.data 1 scenarioFrames.flatten] initState []).trace.countP isObserveEvent = 84 ∧
    (mainTrace vadOf 12 2200 (frameBytesOf 16000)
        [CycleInput.data 1 scenarioFrames.flatten]).countP isFinalEvent = 1 :=
  scenario_A vadOf scenarioFrames (by decide) (by decide)

theorem sessTrace_no_final (classify : List Nat → Bool) (max_seconds : ℚ) (silence_ms n : Nat) :
    ∀ (cycles : List CycleInput) (s : SegState) (buf : List Nat),
      (runSession classify max_seconds silence_ms n cycles s buf).trace.countP isFinalEvent = 0 := by
  intro cycles
  induction cycles with
  | nil => intro s buf; simp [runSession]
  | cons c rest ih =>
    intro s buf
    simp only [runSession]
    cases hck : checkTimeout max_seconds (cycleElapsed c) with
    | Stop r => simp
    | Continue =>
      cases c with
      | empty e => simpa using ih s buf
      | data e chunk =>
        simp only [processFrames]
        set P := processFramesAux classify silence_ms n (buf ++ chunk).length s (buf ++ chunk)
          with hP
        by_cases hs : P.stopped = true
        · simp only [if_pos hs]
          rw [hP, procAux_trace_eq, countP_final_frameTrace]
        · simp only [if_neg hs]
          rw [List.countP_append, ih, hP, procAux_trace_eq, countP_final_frameTrace]

/-- Claim C8: on every session that stops — by silence timeout or by the
max-duration cap — the trace of the whole run contains the FinalResult
request exactly once, and it comes after every AcceptWaveform feed. -/
theorem final_result_once (classify : List Nat → Bool) (max_seconds : ℚ)
    (silence_ms n : Nat) (cycles : List CycleInput)
    (h : (runSession classify max_seconds silence_ms n cycles initState []).outcome ≠
      SessionOutcome.running) :
    (mainTrace classify max_seconds silence_ms n cycles).countP isFinalEvent = 1 ∧
    ∀ i j (hi : i < (mainTrace classify max_seconds silence_ms n cycles).length)
      (hj : j < (mainTrace classify max_seconds silence_ms n cycles).length),
      isAcceptEvent (mainTrace classify max_seconds silence_ms n cycles)[i] = true →
      isFinalEvent (mainTrace classify max_seconds silence_ms n cycles)[j] = true →
      i < j := by
  have htr : mainTrace classify max_seconds silence_ms n cycles =
      (runSession classify max_seconds silence_ms n cycles initState []).trace ++
        [Event.FinalResult] := by
    unfold mainTrace
    cases ho : (runSession classify max_seconds silence_ms n cycles initState []).outcome <;>
      simp_all
  have hnf : (runSession classify max_seconds silence_ms n cycles initState []).trace.countP
      isFinalEvent = 0 := sessTrace_no_final classify max_seconds silence_ms n cycles initState []
  have hnofin : ∀ a ∈ (runSession classify max_seconds silence_ms n cycles initState []).trace,
      ¬ isFinalEvent a = true := List.countP_eq_zero.mp hnf
  constructor
  · rw [htr, List.countP_append, hnf]
    rfl
  · intro i j hi hj hacc hfin
    rw [htr] at hi hj
    simp only [htr] at hacc hfin
    set tr := (runSession classify max_seconds silence_ms n cycles initState []).trace with htrdef
    have hjlen : ¬ j < tr.length := by
      intro hjl
      have hg : (tr ++ [Event.FinalResult])[j] = tr[j] := List.getElem_append_left hjl
      rw [hg] at hfin
      exact hnofin _ (List.getElem_mem hjl) hfin
    have hjeq : j = tr.length := by
      simp only [List.length_append, List.length_singleton] at hj
      omega
    by_contra hcon
    have hieq : i = tr.length := by
      simp only [List.length_append, List.length_singleton] at hi
      omega
    have hfa : (tr ++ [Event.FinalResult])[i] = Event.FinalResult :=
      List.getElem_concat_length tr Event.FinalResult i hieq hi
    rw [hfa] at hacc
    simp [isAcceptEvent] at hacc

/-- Claim C8 witness: a session ended by the max-duration cap. -/
theorem final_result_once_witness :
    ((runSession vadOf 12 2200 2 [CycleInput.empty 13] initState []).outcome ≠
      SessionOutcome.running) ∧
    ((mainTrace vadOf 12 2200 2 [CycleInput.empty 13]).countP isFinalEvent = 1 ∧
      ∀ i j (hi : i < (mainTrace vadOf 12 2200 2 [CycleInput.empty 13]).length)
        (hj : j < (mainTrace vadOf 12 2200 2 [CycleInput.empty 13]).length),
        isAcceptEvent (mainTrace vadOf 12 2200 2 [CycleInput.empty 13])[i] = true →
        isFinalEvent (mainTrace vadOf 12 2200 2 [CycleInput.empty 13])[j] = true →
        i < j) :=
  ⟨by decide, final_result_once vadOf 12 2200 2 [CycleInput.empty 13] (by decide)⟩

theorem observe_no_start (silence_ms : Nat) (r : Nat) (b : Bool)
    (hb : b = true → (r + 1) * frame_duration_ms < MIN_SPEECH_RUN_MS) :
    observe silence_ms ⟨false, 0, r * frame_duration_ms⟩ b =
      (⟨false, 0, (if b then r + 1 else 0) * frame_duration_ms⟩, Verdict.Continue) := by
  cases b with
  | false => simp [observe, updateState]
  | true =>
    have h := hb rfl
    have hc : ¬ MIN_SPEECH_RUN_MS ≤ r * frame_duration_ms + frame_duration_ms := by
      have hexp : (r + 1) * frame_duration_ms = r * frame_duration_ms + frame_duration_ms := by
        ring
      omega
    simp [observe, updateState, hc]
    ring

theorem runSeg_no_start (silence_ms : Nat) :
    ∀ (bs : List Bool) (r : Nat), noLongRunB r bs = true →
      runSeg silence_ms ⟨false, 0, r * frame_duration_ms⟩ bs =
        (⟨false, 0, runCredit r bs * frame_duration_ms⟩, none) := by
  intro bs
  induction bs with
  | nil => intro r _; simp [runSeg, runCredit]
  | cons b bs ih =>
    intro r h
    cases b with
    | true =>
      have hlt : (r + 1) * frame_duration_ms < MIN_SPEECH_RUN_MS := by
        simp [noLongRunB] at h
        exact h.1
      have hrec : noLongRunB (r + 1) bs = true := by
        simp [noLongRunB] at h
        exact h.2
      have hobs := observe_no_start silence_ms r true (fun _ => hlt)
      norm_num at hobs
      rw [runSeg, hobs]
      dsimp only
      rw [ih (r + 1) hrec]
      simp [runCredit]
    | false =>
      have hrec : noLongRunB 0 bs = true := by
        simpa [noLongRunB] using h
      have hobs := observe_no_start silence_ms r false (fun hf => by simp at hf)
      norm_num at hobs
      have ih0 := ih 0 hrec
      norm_num at ih0
      rw [runSeg, hobs]
      dsimp only
      rw [ih0]
      simp [runCredit]

theorem noLongRunB_append :
    ∀ (xs ys : List Bool) (r : Nat),
      noLongRunB r (xs ++ ys) = (noLongRunB r xs && noLongRunB (runCredit r xs) ys) := by
  intro xs
  induction xs with
  | nil => intro ys r; simp [noLongRunB, runCredit]
  | cons b xs ih =>
    intro ys r
    cases b <;> simp [noLongRunB, runCredit, ih, Bool.and_assoc]

theorem obsBools_append : ∀ (t₁ t₂ : List Event),
    obsBools (t₁ ++ t₂) = obsBools t₁ ++ obsBools t₂ := by
  intro t₁
  induction t₁ with
  | nil => intro t₂; simp [obsBools]
  | cons ev t ih => intro t₂; cases ev <;> simp [obsBools, ih]

theorem obsBools_frameTrace (classify : List Nat → Bool) :
    ∀ fs : List (List Nat), obsBools (frameTrace classify fs) = fs.map classify := by
  intro fs
  induction fs with
  | nil => simp [frameTrace, obsBools]
  | cons f fs ih => simp [frameTrace, obsBools, ih]

theorem sess_no_start (classify : List Nat → Bool) (max_seconds : ℚ) (silence_ms n : Nat) :
    ∀ (cycles : List CycleInput) (r : Nat) (buf : List Nat),
      noLongRunB r (obsBools (runSession classify max_seconds silence_ms n cycles
        ⟨false, 0, r * frame_duration_ms⟩ buf).trace) = true →
      (runSession classify max_seconds silence_ms n cycles
        ⟨false, 0, r * frame_duration_ms⟩ buf).outcome ≠ SessionOutcome.silenceStop ∧
      ∃ r', (runSession classify max_seconds silence_ms n cycles
        ⟨false, 0, r * frame_duration_ms⟩ buf).state = ⟨false, 0, r' * frame_duration_ms⟩ := by
  intro cycles
  induction cycles with
  | nil =>
    intro r buf _
    exact ⟨by simp [runSession], ⟨r, by simp [runSession]⟩⟩
  | cons c rest ih =>
    intro r buf h
    simp only [runSession] at h ⊢
    cases hck : checkTimeout max_seconds (cycleElapsed c) with
    | Stop reason =>
      exact ⟨by simp, ⟨r, by simp⟩⟩
    | Continue =>
      cases c with
      | empty e =>
        rw [hck] at h
        exact ih r buf h
      | data e chunk =>
        rw [hck] at h
        dsimp only at h ⊢
        simp only [processFrames] at h ⊢
        set P := processFramesAux classify silence_ms n (buf ++ chunk).length
          ⟨false, 0, r * frame_duration_ms⟩ (buf ++ chunk) with hP
        have hseg := procAux_runSeg classify silence_ms n (buf ++ chunk).length
          ⟨false, 0, r * frame_duration_ms⟩ (buf ++ chunk)
        have hobs : obsBools P.trace = P.fed.map classify := by
          rw [hP, procAux_trace_eq, obsBools_frameTrace]
        by_cases hs : P.stopped = true
        · exfalso
          rw [if_pos hs] at h
          simp only [] at h
          rw [hobs] at h
          have hns := runSeg_no_start silence_ms (P.fed.map classify) r h
          rw [← hP] at hseg
          rw [hns, hs] at hseg
          simp at hseg
        · rw [if_neg hs] at h ⊢
          simp only [] at h ⊢
          rw [obsBools_append, hobs, noLongRunB_append] at h
          have h1 : noLongRunB r (P.fed.map classify) = true := by
            rcases Bool.and_eq_true_iff.mp h with ⟨h1, _⟩
            exact h1
          have h2 : noLongRunB (runCredit r (P.fed.map classify))
              (obsBools (runSession classify max_seconds silence_ms n rest P.state
                P.leftover).trace) = true := by
            rcases Bool.and_eq_true_iff.mp h with ⟨_, h2⟩
            exact h2
          have hns := runSeg_no_start silence_ms (P.fed.map classify) r h1
          rw [← hP] at hseg
          rw [hns] at hseg
          have hstate : P.state = ⟨false, 0,
              runCredit r (P.fed.map classify) * frame_duration_ms⟩ := by
            have := congrArg Prod.fst hseg
            simpa using this.symm
          rw [hstate] at h2 ⊢
          exact ih (runCredit r (P.fed.map classify)) P.leftover h2

theorem sess_append (classify : List Nat → Bool) (max_seconds : ℚ) (silence_ms n : Nat) :
    ∀ (pre suf : List CycleInput) (s : SegState) (buf : List Nat),
      runSession classify max_seconds silence_ms n (pre ++ suf) s buf =
        (match runSession classify max_seconds silence_ms n pre s buf with
          | ⟨SessionOutcome.running, s', buf', tr⟩ =>
            ⟨(runSession classify max_seconds silence_ms n suf s' buf').outcome,
              (runSession classify max_seconds silence_ms n suf s' buf').state,
              (runSession classify max_seconds silence_ms n suf s' buf').buffer,
              tr ++ (runSession classify max_seconds silence_ms n suf s' buf').trace⟩
          | r => r) := by
  intro pre
  induction pre with
  | nil =>
    intro suf s buf
    simp only [List.nil_append, runSession]
  | cons c pre ih =>
    intro suf s buf
    rw [List.cons_append]
    simp only [runSession]
    cases hck : checkTimeout max_seconds (cycleElapsed c) with
    | Stop reason => rfl
    | Continue =>
      cases c with
      | empty e => exact ih suf s buf
      | data e chunk =>
        simp only [processFrames]
        set P := processFramesAux classify silence_ms n (buf ++ chunk).length s (buf ++ chunk)
          with hP
        by_cases hs : P.stopped = true
        · rw [if_pos hs, if_pos hs]
        · rw [if_neg hs, if_neg hs]
          rw [ih suf P.state P.leftover]
          rcases hY : runSession classify max_seconds silence_ms n pre P.state P.leftover
            with ⟨o, s', b', tr⟩
          cases o <;> simp [List.append_assoc]

/-- Claim C3: when the classifications observed over a whole run never contain
a run of MIN_SPEECH_RUN_MS / frame_duration_ms (five) consecutive
speech-classified frames, then after every prefix of the polling cycles
speech_started is still false and the session has not ended with the silence
timeout — only the max-duration check can terminate it. -/
theorem no_short_run_no_silence_stop (classify : List Nat → Bool) (max_seconds : ℚ)
    (silence_ms n : Nat) (pre suf : List CycleInput)
    (h : noLongRunB 0 (obsBools (runSession classify max_seconds silence_ms n (pre ++ suf)
      initState []).trace) = true) :
    (runSession classify max_seconds silence_ms n pre initState []).outcome ≠
      SessionOutcome.silenceStop ∧
    (runSession classify max_seconds silence_ms n pre initState []).state.speech_started
      = false := by
  have hinit : (initState : SegState) = ⟨false, 0, 0 * frame_duration_ms⟩ := by
    simp [initState]
  have hpre : noLongRunB 0 (obsBools (runSession classify max_seconds silence_ms n pre
      initState []).trace) = true := by
    rw [sess_append] at h
    rcases hY : runSession classify max_seconds silence_ms n pre initState []
      with ⟨o, s', b', tr⟩
    rw [hY] at h
    cases o with
    | running =>
      dsimp only at h ⊢
      rw [obsBools_append, noLongRunB_append] at h
      exact (Bool.and_eq_true_iff.mp h).1
    | maxDuration => exact h
    | silenceStop => exact h
  rw [hinit] at hpre ⊢
  have hmain := sess_no_start classify max_seconds silence_ms n pre 0 [] hpre
  rcases hmain with ⟨ho, ⟨r', hst⟩⟩
  exact ⟨ho, by rw [hst]⟩

/-- Claim C3 witness: one non-speech, two-frame chunk and the empty suffix. -/
theorem no_short_run_no_silence_stop_witness :
    (noLongRunB 0 (obsBools (runSession vadOf 12 2200 2
      ([CycleInput.data 1 [0, 0, 1, 1]] ++ []) initState []).trace) = true) ∧
    ((runSession vadOf 12 2200 2 [CycleInput.data 1 [0, 0, 1, 1]] initState []).outcome ≠
      SessionOutcome.silenceStop ∧
    (runSession vadOf 12 2200 2 [CycleInput.data 1 [0, 0, 1, 1]]
      initState []).state.speech_started = false) :=
  ⟨by decide, no_short_run_no_silence_stop vadOf 12 2200 2
    [CycleInput.data 1 [0, 0, 1, 1]] [] (by decide)⟩

end SttCapture
